import Mathlib

/-!
# Verification of `matomo-tracker-react-native` (`src/MatomoTracker.js`)

A shallow embedding of the Matomo tracker library for React Native.  JavaScript
values flowing through the tracker (strings, numbers, `undefined`) are modelled
by `JSValue`; JavaScript objects are modelled as insertion-ordered association
lists (`JSObject`) with the assignment/spread semantics of object literals:
assigning to an existing key replaces its value in place (keeping its original
position), assigning a fresh key appends it at the end.

The tracker's network side is modelled by splitting `track` into a pure request
builder (`MatomoTracker.track` returns either `TrackCall.noop` or
`TrackCall.dispatch req`, where `req` holds the exact headers and URL-encoded
body the code hands to `fetch`) and a promise-settlement function `trackSettle`
that mirrors the `.then`/`.catch` chain attached to the `fetch` call.
-/

/-- A JavaScript value as it occurs in the tracker's data flow:
a string, a number (the tracker only ever handles integral numbers:
`siteId`, `rec`, `apiv`, `send_image`, event values, search counts),
or `undefined`. -/
inductive JSValue where
  | str : String → JSValue
  | num : Int → JSValue
  | undefined : JSValue
deriving DecidableEq, Repr

/-- A JavaScript object: an insertion-ordered list of key/value pairs.
Objects built by the embedding always have pairwise distinct keys, as real
JS objects do. -/
abbrev JSObject := List (String × JSValue)

/-- JavaScript truthiness for the values the tracker tests with `!x`:
`undefined`, the empty string and `0` are falsy. -/
def truthy : JSValue → Bool
  | .str s => s != ""
  | .num n => n != 0
  | .undefined => false

/-- JavaScript string conversion as performed by `URLSearchParams` on record
values: numbers print in decimal, `undefined` prints as the literal string
`"undefined"`. -/
def jsToString : JSValue → String
  | .str s => s
  | .num n => toString n
  | .undefined => "undefined"

/-- Property assignment on a JS object (`obj[k] = v`): replace the value of an
existing key in place, otherwise append the new key at the end.  This is the
per-key step of object-literal spread. -/
def insertKey : JSObject → String → JSValue → JSObject
  | [], k, v => [(k, v)]
  | p :: rest, k, v => if p.1 = k then (k, v) :: rest else p :: insertKey rest k v

/-- Object spread `{ ...base, ...ext }`: assign each pair of `ext` into `base`
in order.  Later keys override earlier ones; a colliding key keeps the position
of its first occurrence. -/
def spreadInto (base ext : JSObject) : JSObject :=
  ext.foldl (fun acc p => insertKey acc p.1 p.2) base

/-- Property read (`obj[k]`): `undefined` when the key is absent. -/
def getKey : JSObject → String → JSValue
  | [], _ => .undefined
  | p :: rest, k => if p.1 = k then p.2 else getKey rest k

/-- Property deletion (`delete obj[k]`). -/
def deleteKey (o : JSObject) (k : String) : JSObject :=
  o.filter (fun p => p.1 != k)

/-- The ordered list of an object's keys. -/
def keys (o : JSObject) : List String := o.map Prod.fst

/-! ## `application/x-www-form-urlencoded` serialization (`URLSearchParams`) -/

/-- Upper-case hexadecimal digit for `n < 16`. -/
def hexDigit (n : Nat) : Char :=
  if n < 10 then Char.ofNat (48 + n) else Char.ofNat (55 + n)

/-- Bytes left unescaped by the urlencoded serializer: ASCII alphanumerics
and `*`, `-`, `.`, `_`. -/
def isFormSafe (n : Nat) : Bool :=
  (48 ≤ n && n ≤ 57) || (65 ≤ n && n ≤ 90) || (97 ≤ n && n ≤ 122) ||
    n == 42 || n == 45 || n == 46 || n == 95

/-- Encode one byte: space becomes `+`, safe bytes stand for themselves,
everything else is percent-escaped. -/
def formEncodeByte (n : Nat) : String :=
  if n == 32 then "+"
  else if isFormSafe n then String.singleton (Char.ofNat n)
  else String.mk ['%', hexDigit (n / 16), hexDigit (n % 16)]

/-- UTF-8 encoding of one code point, as a list of byte values. -/
def utf8Bytes (c : Char) : List Nat :=
  let n := c.toNat
  if n < 128 then [n]
  else if n < 2048 then [192 + n / 64, 128 + n % 64]
  else if n < 65536 then [224 + n / 4096, 128 + n / 64 % 64, 128 + n % 64]
  else [240 + n / 262144, 128 + n / 4096 % 64, 128 + n / 64 % 64, 128 + n % 64]

/-- Urlencode a string byte by byte over its UTF-8 encoding. -/
def formEncode (s : String) : String :=
  String.join (((s.toList.map utf8Bytes).flatten).map formEncodeByte)

/-- `new URLSearchParams(record).toString()`: each pair becomes
`encode(key)=encode(String(value))`, pairs joined with `&`, in the record's
insertion order. -/
def serializeParams (o : JSObject) : String :=
  String.intercalate "&" (o.map (fun p => formEncode p.1 ++ "=" ++ formEncode (jsToString p.2)))

/-! ## The tracker -/

/-- The user options accepted by the `MatomoTracker` constructor. -/
structure MatomoOptions where
  urlBase : String
  trackerUrl : Option String
  siteId : Int
  userId : Option String
  disabled : Bool
  log : Bool
deriving DecidableEq, Repr

/-- The instance state set up by `MatomoTracker.setup`.  When `disabled`
is true, `initialize` returns early and `trackerUrl` / `siteId` / `userId`
remain unset (`undefined`), hence the `Option` types. -/
structure MatomoTracker where
  disabled : Bool
  log : Bool
  trackerUrl : Option String
  siteId : Option Int
  userId : Option String
deriving DecidableEq, Repr

/-- Truthiness of an optional JS string (`undefined` and `""` are falsy). -/
def jsTruthyStr : Option String → Bool
  | some s => s != ""
  | none => false

/-- `MatomoTracker.setup`: normalize `urlBase` to end in `/` (the code
tests the last character against `'/'` and appends one if it differs), record
the flags, and — unless disabled — resolve `trackerUrl` with the
`?? normalizedUrlBase + "matomo.php"` default, store `siteId`, and store
`userId` only when truthy. -/
def MatomoTracker.setup (o : MatomoOptions) : MatomoTracker :=
  let normalizedUrlBase :=
    if o.urlBase.toList.getLast? != some '/' then o.urlBase ++ "/" else o.urlBase
  if o.disabled then
    { disabled := true, log := o.log, trackerUrl := none, siteId := none, userId := none }
  else
    { disabled := false
      log := o.log
      trackerUrl := some (o.trackerUrl.getD (normalizedUrlBase ++ "matomo.php"))
      siteId := some o.siteId
      userId := if jsTruthyStr o.userId then o.userId else none }

/-- The `MatomoTracker` constructor: reject a falsy `urlBase` (empty string)
or a falsy `siteId` (zero) with a synchronous error, otherwise initialize. -/
def MatomoTracker.make (o : MatomoOptions) : Except String MatomoTracker :=
  if o.urlBase = "" then Except.error "urlBase is required for Matomo tracking."
  else if o.siteId = 0 then Except.error "siteId is required for Matomo tracking."
  else Except.ok (MatomoTracker.setup o)

/-- The value of `this.siteId` as a JS value (`undefined` when unset). -/
def optIntToJS : Option Int → JSValue
  | some n => .num n
  | none => .undefined

/-- The conditional `uid` entry: `...(this.userId ? { uid: this.userId } : {})`. -/
def uidParams (t : MatomoTracker) : JSObject :=
  match t.userId with
  | some u => if u != "" then [("uid", .str u)] else []
  | none => []

/-- The protocol-generated part of the body record, in the literal's order:
`idsite`, `rec: 1`, `apiv: 1`, the optional `uid`, `send_image: 0`. -/
def protocolParams (t : MatomoTracker) : JSObject :=
  [("idsite", optIntToJS t.siteId), ("rec", .num 1), ("apiv", .num 1)]
    ++ uidParams t ++ [("send_image", .num 0)]

/-- The body record handed to `URLSearchParams`: the protocol params overlaid
with the caller's data, after `lang` has been deleted from the data. -/
def bodyParams (t : MatomoTracker) (data : JSObject) : JSObject :=
  spreadInto (protocolParams t) (deleteKey data "lang")

/-- The HTTP request `track` passes to `fetch`: method is always POST, so only
the URL, the headers and the serialized body are recorded. -/
structure FetchRequest where
  url : Option String
  accept : String
  acceptLanguage : JSValue
  contentType : String
  body : String
deriving DecidableEq, Repr

/-- Build the `fetch` arguments of `MatomoTracker.track` for a given data
object: `lang` is read out of the data and moved to the `Accept-Language`
header, the remaining data is spread over the protocol params, and the result
is urlencoded. -/
def buildRequest (t : MatomoTracker) (data : JSObject) : FetchRequest :=
  { url := t.trackerUrl
    accept := "application/json"
    acceptLanguage := getKey data "lang"
    contentType := "application/x-www-form-urlencoded; charset=UTF-8"
    body := serializeParams (bodyParams t data) }

/-- The observable effect of one `track` call: either no network activity at
all, or exactly one dispatched request. -/
inductive TrackCall where
  | noop : TrackCall
  | dispatch : FetchRequest → TrackCall
deriving DecidableEq, Repr

/-- `MatomoTracker.track(data)`: return immediately when the tracker is
disabled or when `data` is absent (`undefined`); note that an *empty* object
is truthy in JS, so `some []` still dispatches.  Otherwise build and dispatch
the request. -/
def MatomoTracker.track (t : MatomoTracker) (data : Option JSObject) : TrackCall :=
  if t.disabled then .noop
  else
    match data with
    | none => .noop
    | some d => .dispatch (buildRequest t d)

/-! ## The promise chain attached to `fetch` -/

/-- The response object seen by the `.then` handler: its `ok` flag and its
`statusText`. -/
structure Response where
  ok : Bool
  statusText : String
deriving DecidableEq, Repr

/-- What the transport does with a dispatched request: deliver a response, or
fail at the network level (a rejected `fetch` promise with an error message). -/
inductive FetchOutcome where
  | success : Response → FetchOutcome
  | networkError : String → FetchOutcome
deriving DecidableEq, Repr

/-- A settled JS promise: resolved with a value, or rejected with an error
message. -/
inductive PromiseOutcome (α : Type) where
  | resolved : α → PromiseOutcome α
  | rejected : String → PromiseOutcome α
deriving DecidableEq, Repr

/-- The value the `track` promise resolves with: the response on success, or
the caught error otherwise. -/
inductive TrackValue where
  | response : Response → TrackValue
  | error : String → TrackValue
deriving DecidableEq, Repr

/-- The promise returned by `fetch` itself. -/
def fetchPromise : FetchOutcome → PromiseOutcome Response
  | .success r => .resolved r
  | .networkError e => .rejected e

/-- The `.then` handler of `track`: `if (!response.ok) throw Error(response.statusText)`,
otherwise pass the response through.  A rejection flows past it unchanged. -/
def thenOk : PromiseOutcome Response → PromiseOutcome Response
  | .resolved r => if r.ok then .resolved r else .rejected r.statusText
  | .rejected e => .rejected e

/-- The `.catch` handler of `track`: a rejection is caught and *returned*,
turning it into a resolved error value. -/
def catchReturn : PromiseOutcome Response → PromiseOutcome TrackValue
  | .resolved r => .resolved (.response r)
  | .rejected e => .resolved (.error e)

/-- How the promise returned by `track` settles, as a function of the
transport outcome: the `fetch` promise run through `.then` and `.catch`. -/
def trackSettle (o : FetchOutcome) : PromiseOutcome TrackValue :=
  catchReturn (thenOk (fetchPromise o))

/-- The full observable result of `track(data)` against a given transport:
`none` when the code returns `undefined` without a promise (disabled tracker
or absent data), otherwise the settled promise of the one dispatched request. -/
def trackPromise (t : MatomoTracker) (data : Option JSObject)
    (transport : FetchRequest → FetchOutcome) : Option (PromiseOutcome TrackValue) :=
  match t.track data with
  | .noop => none
  | .dispatch req => some (trackSettle (transport req))

/-! ## The per-kind tracking methods -/

/-- `trackAction({ name, userInfo })`: require a truthy `name`, then
`track({ action_name: name, ...userInfo })`. -/
def MatomoTracker.trackAction (t : MatomoTracker) (name : JSValue)
    (userInfo : JSObject) : Except String TrackCall :=
  if !truthy name then
    Except.error "Error: The \"name\" parameter is required for tracking an action."
  else
    Except.ok (t.track (some (spreadInto [("action_name", name)] userInfo)))

/-- `trackAppStart({ userInfo })`: an action named `App / start`. -/
def MatomoTracker.trackAppStart (t : MatomoTracker) (userInfo : JSObject) :
    Except String TrackCall :=
  t.trackAction (.str "App / start") userInfo

/-- `trackScreenView({ name, userInfo })`: require a truthy `name`, then an
action named `Screen / ${name}`. -/
def MatomoTracker.trackScreenView (t : MatomoTracker) (name : JSValue)
    (userInfo : JSObject) : Except String TrackCall :=
  if !truthy name then
    Except.error "Error: The \"name\" parameter is required for tracking a screen view."
  else
    t.trackAction (.str ("Screen / " ++ jsToString name)) userInfo

/-- `trackEvent({ category, action, name, value, campaign, userInfo })`:
require truthy `category` and `action`, then
`track({ e_c, e_a, e_n, e_v, mtm_campaign, ...userInfo })`.  The optional
fields are placed in the record even when `undefined`. -/
def MatomoTracker.trackEvent (t : MatomoTracker)
    (category action name value campaign : JSValue) (userInfo : JSObject) :
    Except String TrackCall :=
  if !truthy category then
    Except.error "Error: The \"category\" parameter is required for tracking an event."
  else if !truthy action then
    Except.error "Error: The \"action\" parameter is required for tracking an event."
  else
    Except.ok (t.track (some (spreadInto
      [("e_c", category), ("e_a", action), ("e_n", name), ("e_v", value),
        ("mtm_campaign", campaign)] userInfo)))

/-- `trackSiteSearch({ keyword, category, count, userInfo })`: require a
truthy `keyword`, then `track({ search, search_cat, search_count, ...userInfo })`;
`category` and `count` are placed in the record even when `undefined`. -/
def MatomoTracker.trackSiteSearch (t : MatomoTracker)
    (keyword category count : JSValue) (userInfo : JSObject) :
    Except String TrackCall :=
  if !truthy keyword then
    Except.error "Error: The \"keyword\" parameter is required for tracking a site search."
  else
    Except.ok (t.track (some (spreadInto
      [("search", keyword), ("search_cat", category), ("search_count", count)] userInfo)))

/-- `trackLink({ link, userInfo })`: require a truthy `link`, then
`track({ link, url: link, ...userInfo })`. -/
def MatomoTracker.trackLink (t : MatomoTracker) (link : JSValue)
    (userInfo : JSObject) : Except String TrackCall :=
  if !truthy link then
    Except.error "Error: The \"link\" parameter is required for tracking a link click."
  else
    Except.ok (t.track (some (spreadInto [("link", link), ("url", link)] userInfo)))

/-- `trackDownload({ download, userInfo })`: require a truthy `download`, then
`track({ download, url: download, ...userInfo })`. -/
def MatomoTracker.trackDownload (t : MatomoTracker) (download : JSValue)
    (userInfo : JSObject) : Except String TrackCall :=
  if !truthy download then
    Except.error "Error: The \"download\" parameter is required for tracking a file download."
  else
    Except.ok (t.track (some (spreadInto [("download", download), ("url", download)] userInfo)))

/-- Modelled from the spec: `updateUserInfo` / `removeUserInfo` are forwarded
by the `useMatomo` binding (`instance.updateUserInfo && instance.updateUserInfo(params)`),
but the `MatomoTracker` implementation of these two methods is not among the
provided source files.  Per the spec (§4.2) they "mutate the configured
`userId`/associated identity fields so future `track` calls include/omit
them": `updateUserInfo` sets the configured user identity. -/
def MatomoTracker.updateUserInfo (t : MatomoTracker) (userId : String) : MatomoTracker :=
  { t with userId := some userId }

/-- Modelled from the spec: counterpart of `updateUserInfo` (see there);
`removeUserInfo` clears the configured user identity so future `track` calls
omit the `uid` field. -/
def MatomoTracker.removeUserInfo (t : MatomoTracker) : MatomoTracker :=
  { t with userId := none }

/-! ## Concrete instances used by witnesses and counterexamples -/

/-- An enabled tracker built from plain options. -/
def tEnabled : MatomoTracker :=
  MatomoTracker.setup
    { urlBase := "https://matomo.example.org", trackerUrl := none, siteId := 1,
      userId := none, disabled := false, log := false }

/-- A tracker constructed with `disabled: true`. -/
def tDisabled : MatomoTracker :=
  MatomoTracker.setup
    { urlBase := "https://matomo.example.org", trackerUrl := none, siteId := 1,
      userId := none, disabled := true, log := false }

/-! ## Lemmas about the JS-object operations -/

theorem keys_nil : keys ([] : JSObject) = [] := rfl

theorem keys_cons (p : String × JSValue) (o : JSObject) :
    keys (p :: o) = p.1 :: keys o := rfl

theorem insertKey_nil (k : String) (v : JSValue) : insertKey [] k v = [(k, v)] := rfl

theorem insertKey_cons (p : String × JSValue) (o : JSObject) (k : String) (v : JSValue) :
    insertKey (p :: o) k v = if p.1 = k then (k, v) :: o else p :: insertKey o k v := rfl

theorem getKey_nil (k : String) : getKey [] k = .undefined := rfl

theorem getKey_cons (p : String × JSValue) (o : JSObject) (k : String) :
    getKey (p :: o) k = if p.1 = k then p.2 else getKey o k := rfl

theorem spreadInto_nil (base : JSObject) : spreadInto base [] = base := rfl

theorem spreadInto_cons (base : JSObject) (p : String × JSValue) (ext : JSObject) :
    spreadInto base (p :: ext) = spreadInto (insertKey base p.1 p.2) ext := rfl

theorem getKey_insertKey_self (o : JSObject) (k : String) (v : JSValue) :
    getKey (insertKey o k v) k = v := by
  induction o with
  | nil => simp [insertKey_nil, getKey_cons, getKey_nil]
  | cons p rest ih =>
    by_cases h : p.1 = k
    · simp [insertKey_cons, h, getKey_cons]
    · simp [insertKey_cons, h, getKey_cons, ih]

theorem getKey_insertKey_ne (o : JSObject) (k k' : String) (v : JSValue) (h : k' ≠ k) :
    getKey (insertKey o k v) k' = getKey o k' := by
  induction o with
  | nil => simp [insertKey_nil, getKey_cons, getKey_nil, Ne.symm h]
  | cons p rest ih =>
    by_cases hp : p.1 = k
    · simp [insertKey_cons, hp, getKey_cons, Ne.symm h]
    · simp [insertKey_cons, hp, getKey_cons, ih]

theorem mem_insertKey_self (o : JSObject) (k : String) (v : JSValue) :
    (k, v) ∈ insertKey o k v := by
  induction o with
  | nil => simp [insertKey_nil]
  | cons p rest ih =>
    by_cases h : p.1 = k <;> simp [insertKey_cons, h, ih]

theorem mem_insertKey_of_ne (o : JSObject) (k : String) (v : JSValue)
    (p : String × JSValue) (hp : p ∈ o) (hne : p.1 ≠ k) : p ∈ insertKey o k v := by
  induction o with
  | nil => cases hp
  | cons q rest ih =>
    rcases List.mem_cons.mp hp with rfl | hmem
    · by_cases h : p.1 = k
      · exact absurd h hne
      · simp [insertKey_cons, h]
    · by_cases h : q.1 = k
      · simp [insertKey_cons, h]
        exact Or.inr hmem
      · simp [insertKey_cons, h]
        exact Or.inr (ih hmem)

theorem keys_insertKey_subset (o : JSObject) (k : String) (v : JSValue) :
    keys (insertKey o k v) ⊆ k :: keys o := by
  induction o with
  | nil => simp [insertKey_nil, keys_cons, keys_nil]
  | cons p rest ih =>
    by_cases h : p.1 = k
    · simp [insertKey_cons, h, keys_cons]
    · simp only [insertKey_cons, if_neg h, keys_cons]
      intro a ha
      rcases List.mem_cons.mp ha with rfl | ha'
      · simp
      · rcases List.mem_cons.mp (ih ha') with rfl | hmem
        · simp
        · simp [hmem]

theorem not_mem_keys_insertKey (o : JSObject) (k k' : String) (v : JSValue)
    (h1 : k' ∉ keys o) (h2 : k' ≠ k) : k' ∉ keys (insertKey o k v) := by
  intro hmem
  rcases List.mem_cons.mp (keys_insertKey_subset o k v hmem) with rfl | hmem'
  · exact h2 rfl
  · exact h1 hmem'

theorem insertKey_of_not_mem (o : JSObject) (k : String) (v : JSValue)
    (h : k ∉ keys o) : insertKey o k v = o ++ [(k, v)] := by
  induction o with
  | nil => simp [insertKey_nil]
  | cons p rest ih =>
    simp [keys_cons] at h
    push_neg at h
    simp [insertKey_cons, Ne.symm h.1, ih h.2]

theorem nodup_keys_insertKey (o : JSObject) (k : String) (v : JSValue)
    (h : (keys o).Nodup) : (keys (insertKey o k v)).Nodup := by
  induction o with
  | nil => simp [insertKey_nil, keys_cons, keys_nil]
  | cons p rest ih =>
    simp [keys_cons] at h
    by_cases hp : p.1 = k
    · simp [insertKey_cons, hp, keys_cons]
      exact ⟨by rw [← hp]; exact h.1, h.2⟩
    · simp [insertKey_cons, hp, keys_cons]
      refine ⟨fun hmem => ?_, ih h.2⟩
      rcases List.mem_cons.mp (keys_insertKey_subset rest k v hmem) with h' | h'
      · exact hp h'
      · exact h.1 h'

theorem getKey_spreadInto_not_mem (ext : JSObject) :
    ∀ base : JSObject, ∀ k : String, k ∉ keys ext →
      getKey (spreadInto base ext) k = getKey base k := by
  induction ext with
  | nil => intro base k _; simp [spreadInto_nil]
  | cons p rest ih =>
    intro base k hk
    simp [keys_cons] at hk
    push_neg at hk
    rw [spreadInto_cons, ih _ k hk.2, getKey_insertKey_ne _ _ _ _ hk.1]

theorem getKey_spreadInto_mem (ext : JSObject) :
    ∀ base : JSObject, ∀ k : String, (keys ext).Nodup → k ∈ keys ext →
      getKey (spreadInto base ext) k = getKey ext k := by
  induction ext with
  | nil => intro base k _ hk; cases hk
  | cons p rest ih =>
    intro base k hnd hk
    simp [keys_cons] at hnd
    by_cases h : p.1 = k
    · have hk' : k ∉ keys rest := by rw [← h]; exact hnd.1
      rw [spreadInto_cons, getKey_spreadInto_not_mem rest _ k hk',
        getKey_cons, if_pos h, h, getKey_insertKey_self]
    · have hk' : k ∈ keys rest := by
        rcases List.mem_cons.mp hk with h' | h'
        · exact absurd h'.symm h
        · exact h'
      rw [spreadInto_cons, ih _ k hnd.2 hk', getKey_cons, if_neg h]

theorem spreadInto_of_disjoint (ext : JSObject) :
    ∀ base : JSObject, (keys ext).Nodup → (∀ a ∈ keys ext, a ∉ keys base) →
      spreadInto base ext = base ++ ext := by
  induction ext with
  | nil => intro base _ _; simp [spreadInto_nil]
  | cons p rest ih =>
    intro base hnd hdisj
    simp [keys_cons] at hnd
    have hp : p.1 ∉ keys base := hdisj p.1 (by simp [keys_cons])
    have hkeys : keys (base ++ [(p.1, p.2)]) = keys base ++ [p.1] := by simp [keys]
    have hdisj' : ∀ a ∈ keys rest, a ∉ keys (base ++ [(p.1, p.2)]) := by
      intro a ha hmem
      rw [hkeys] at hmem
      rcases List.mem_append.mp hmem with h' | h'
      · exact hdisj a (by simp [keys_cons, ha]) h'
      · simp at h'
        rw [h'] at ha
        exact hnd.1 ha
    rw [spreadInto_cons, insertKey_of_not_mem base p.1 p.2 hp, ih _ hnd.2 hdisj']
    simp

theorem not_mem_keys_spreadInto (ext : JSObject) :
    ∀ base : JSObject, ∀ k : String, k ∉ keys base → k ∉ keys ext →
      k ∉ keys (spreadInto base ext) := by
  induction ext with
  | nil => intro base k h _; simpa [spreadInto_nil] using h
  | cons p rest ih =>
    intro base k hb he
    simp [keys_cons] at he
    push_neg at he
    rw [spreadInto_cons]
    exact ih _ k (not_mem_keys_insertKey base p.1 k p.2 hb he.1) he.2

theorem mem_spreadInto_left (ext : JSObject) :
    ∀ base : JSObject, ∀ p : String × JSValue, p ∈ base → p.1 ∉ keys ext →
      p ∈ spreadInto base ext := by
  induction ext with
  | nil => intro base p hp _; simpa [spreadInto_nil] using hp
  | cons q rest ih =>
    intro base p hp hk
    simp [keys_cons] at hk
    push_neg at hk
    rw [spreadInto_cons]
    exact ih _ p (mem_insertKey_of_ne base q.1 q.2 p hp hk.1) hk.2

theorem mem_spreadInto_right (ext : JSObject) :
    ∀ base : JSObject, ∀ p : String × JSValue, (keys ext).Nodup → p ∈ ext →
      p ∈ spreadInto base ext := by
  induction ext with
  | nil => intro base p _ hp; cases hp
  | cons q rest ih =>
    intro base p hnd hp
    simp [keys_cons] at hnd
    rcases List.mem_cons.mp hp with rfl | hmem
    · rw [spreadInto_cons]
      exact mem_spreadInto_left rest _ p (mem_insertKey_self base p.1 p.2) hnd.1
    · rw [spreadInto_cons]
      exact ih _ p hnd.2 hmem

theorem nodup_keys_spreadInto (ext : JSObject) :
    ∀ base : JSObject, (keys base).Nodup → (keys (spreadInto base ext)).Nodup := by
  induction ext with
  | nil => intro base h; simpa [spreadInto_nil] using h
  | cons p rest ih =>
    intro base h
    rw [spreadInto_cons]
    exact ih _ (nodup_keys_insertKey base p.1 p.2 h)

theorem mem_keys_deleteKey (o : JSObject) (k k' : String)
    (h : k' ∈ keys (deleteKey o k)) : k' ∈ keys o ∧ k' ≠ k := by
  simp only [keys, deleteKey, List.mem_map] at h ⊢
  rcases h with ⟨p, hp, rfl⟩
  have := List.mem_filter.mp hp
  refine ⟨⟨p, this.1, rfl⟩, ?_⟩
  simpa using this.2

theorem not_mem_keys_deleteKey_self (o : JSObject) (k : String) :
    k ∉ keys (deleteKey o k) := by
  intro h
  exact (mem_keys_deleteKey o k k h).2 rfl

theorem mem_deleteKey_of_ne (o : JSObject) (k : String) (p : String × JSValue)
    (hp : p ∈ o) (hne : p.1 ≠ k) : p ∈ deleteKey o k := by
  refine List.mem_filter.mpr ⟨hp, ?_⟩
  simpa using hne

theorem deleteKey_cons (p : String × JSValue) (o : JSObject) (k : String) :
    deleteKey (p :: o) k = if p.1 = k then deleteKey o k else p :: deleteKey o k := by
  by_cases h : p.1 = k <;> simp [deleteKey, List.filter_cons, h]

theorem getKey_deleteKey_ne (o : JSObject) (k k' : String) (hne : k' ≠ k) :
    getKey (deleteKey o k) k' = getKey o k' := by
  induction o with
  | nil => rfl
  | cons p rest ih =>
    by_cases h : p.1 = k
    · have hp : ¬p.1 = k' := fun h' => hne (h'.symm.trans h)
      rw [deleteKey_cons, if_pos h, getKey_cons, if_neg hp, ih]
    · rw [deleteKey_cons, if_neg h, getKey_cons, getKey_cons]
      by_cases h' : p.1 = k'
      · rw [if_pos h', if_pos h']
      · rw [if_neg h', if_neg h', ih]

theorem keys_deleteKey_sublist (o : JSObject) (k : String) :
    List.Sublist (keys (deleteKey o k)) (keys o) :=
  (List.filter_sublist o).map Prod.fst

theorem nodup_keys_deleteKey (o : JSObject) (k : String)
    (h : (keys o).Nodup) : (keys (deleteKey o k)).Nodup :=
  List.Nodup.sublist (keys_deleteKey_sublist o k) h

/-! ## Helper lemmas about promise settlement -/

theorem trackSettle_cases (o : FetchOutcome) :
    trackSettle o =
      (match o with
        | .success r =>
            if r.ok then PromiseOutcome.resolved (TrackValue.response r)
            else PromiseOutcome.resolved (TrackValue.error r.statusText)
        | .networkError e => PromiseOutcome.resolved (TrackValue.error e)) := by
  cases o with
  | success r =>
    by_cases h : r.ok <;> simp [trackSettle, fetchPromise, thenOk, catchReturn, h]
  | networkError e => simp [trackSettle, fetchPromise, thenOk, catchReturn]

theorem trackSettle_ne_rejected (o : FetchOutcome) (e : String) :
    trackSettle o ≠ PromiseOutcome.rejected e := by
  rw [trackSettle_cases]
  rcases o with r | e'
  · by_cases hok : r.ok <;> simp [hok]
  · simp

/-! ## Claims -/

/-- **C1.** For every transport failure or non-ok HTTP status during dispatch,
the promise returned by `track()` resolves — it is never rejected — with a
value carrying the error (the network error message respectively the
response's `statusText`), so a failing analytics endpoint never propagates an
exception/rejection to the caller. -/
theorem track_promise_never_rejects (t : MatomoTracker) (data : Option JSObject)
    (transport : FetchRequest → FetchOutcome) :
    (∀ p, trackPromise t data transport = some p →
        ∀ e, p ≠ PromiseOutcome.rejected e)
    ∧ (∀ req e, t.track data = TrackCall.dispatch req →
        transport req = FetchOutcome.networkError e →
        trackPromise t data transport
          = some (PromiseOutcome.resolved (TrackValue.error e)))
    ∧ (∀ req r, t.track data = TrackCall.dispatch req →
        transport req = FetchOutcome.success r → r.ok = false →
        trackPromise t data transport
          = some (PromiseOutcome.resolved (TrackValue.error r.statusText))) := by
  refine ⟨?_, ?_, ?_⟩
  · intro p hp e
    rcases htc : t.track data with _ | req
    · simp [trackPromise, htc] at hp
    · simp only [trackPromise, htc, Option.some.injEq] at hp
      rw [← hp]
      exact trackSettle_ne_rejected (transport req) e
  · intro req e htc htr
    simp [trackPromise, htc, htr, trackSettle_cases]
  · intro req r htc htr hok
    simp [trackPromise, htc, htr, trackSettle_cases, hok]

/-- Witness for C1: an enabled tracker whose transport fails with a network
error yields a promise resolved with that error. -/
theorem track_promise_never_rejects_witness :
    trackPromise tEnabled (some [("action_name", JSValue.str "x")])
        (fun _ => FetchOutcome.networkError "network down")
      = some (PromiseOutcome.resolved (TrackValue.error "network down")) :=
  (track_promise_never_rejects tEnabled (some [("action_name", JSValue.str "x")])
      (fun _ => FetchOutcome.networkError "network down")).2.1
    (buildRequest tEnabled [("action_name", JSValue.str "x")]) "network down" rfl rfl

/-- **C2 counterexample.** The claim says that with `disabled: true` every
tracking method returns immediately, the disabled check happening first,
before any field validation.  In the code the per-method required-field
validation runs *before* `track`'s disabled check: on a disabled tracker,
`trackScreenView` with an empty `name` still throws the validation error
instead of returning. -/
theorem trackScreenView_disabled_still_validates :
    tDisabled.trackScreenView (JSValue.str "") []
      = Except.error "Error: The \"name\" parameter is required for tracking a screen view." :=
  rfl

/-- **C2 (amended).** When the tracker was constructed with `disabled: true`,
no tracking method ever performs a network request: `track` itself is a no-op
for every argument, and every per-kind method that returns (instead of
throwing its required-field validation error) returns that no-op.  The
disabled check happens inside `track`, before any request building — but
*after* the per-method field validation, which still throws on a missing
required field. -/
theorem disabled_never_dispatches (t : MatomoTracker) (h : t.disabled = true)
    (data : Option JSObject)
    (name category action ename evalue campaign keyword scat scount link download : JSValue)
    (ui : JSObject) :
    t.track data = TrackCall.noop
    ∧ (∀ c, t.trackAppStart ui = Except.ok c → c = TrackCall.noop)
    ∧ (∀ c, t.trackScreenView name ui = Except.ok c → c = TrackCall.noop)
    ∧ (∀ c, t.trackAction name ui = Except.ok c → c = TrackCall.noop)
    ∧ (∀ c, t.trackEvent category action ename evalue campaign ui = Except.ok c →
        c = TrackCall.noop)
    ∧ (∀ c, t.trackSiteSearch keyword scat scount ui = Except.ok c → c = TrackCall.noop)
    ∧ (∀ c, t.trackLink link ui = Except.ok c → c = TrackCall.noop)
    ∧ (∀ c, t.trackDownload download ui = Except.ok c → c = TrackCall.noop) := by
  have htrack : ∀ d, t.track d = TrackCall.noop := by
    intro d
    simp [MatomoTracker.track, h]
  refine ⟨htrack data, ?_, ?_, ?_, ?_, ?_, ?_, ?_⟩ <;>
    (intro c hc
     simp only [MatomoTracker.trackAppStart, MatomoTracker.trackScreenView,
       MatomoTracker.trackAction, MatomoTracker.trackEvent,
       MatomoTracker.trackSiteSearch, MatomoTracker.trackLink,
       MatomoTracker.trackDownload] at hc
     split_ifs at hc <;> simp at hc <;> (rw [← hc]; exact htrack _))

/-- Witness for C2 (amended): the concrete disabled tracker dispatches
nothing for a valid screen-view call. -/
theorem disabled_never_dispatches_witness :
    tDisabled.track (some [("action_name", JSValue.str "Home")]) = TrackCall.noop
    ∧ ∀ c, tDisabled.trackScreenView (JSValue.str "Home") [] = Except.ok c →
        c = TrackCall.noop :=
  ⟨(disabled_never_dispatches tDisabled rfl (some [("action_name", JSValue.str "Home")])
      (JSValue.str "Home") .undefined .undefined .undefined .undefined .undefined .undefined .undefined .undefined
      .undefined .undefined []).1,
   (disabled_never_dispatches tDisabled rfl (some [("action_name", JSValue.str "Home")])
      (JSValue.str "Home") .undefined .undefined .undefined .undefined .undefined .undefined .undefined .undefined
      .undefined .undefined []).2.2.1⟩

/-- **C3 counterexample.** The claim says `track(fields)` is a no-op when
`fields` is an empty mapping.  In JavaScript an empty object is truthy, so
`if (!data) return` does not fire: `track({})` on an enabled tracker
dispatches a request (carrying only the protocol parameters). -/
theorem track_empty_object_dispatches :
    tEnabled.track (some []) ≠ TrackCall.noop := by decide

/-- **C3 (amended).** `track(fields)` performs no network request and returns
an undefined result when the tracker is disabled or when `fields` is absent
(`undefined`); an *empty* field mapping, however, is truthy and still
dispatches a request built from the protocol parameters alone. -/
theorem track_noop_only_when_absent (t : MatomoTracker) (h : t.disabled = false)
    (d : JSObject) :
    t.track none = TrackCall.noop
    ∧ t.track (some d) = TrackCall.dispatch (buildRequest t d) := by
  constructor <;> simp [MatomoTracker.track, h]

/-- Witness for C3 (amended) at the concrete enabled tracker. -/
theorem track_noop_only_when_absent_witness :
    tEnabled.track none = TrackCall.noop
    ∧ tEnabled.track (some []) = TrackCall.dispatch (buildRequest tEnabled []) :=
  track_noop_only_when_absent tEnabled rfl []

theorem lang_not_in_protocolParams (t : MatomoTracker) :
    "lang" ∉ keys (protocolParams t) := by
  rcases t with ⟨dis, lg, turl, sid, uid⟩
  rcases uid with _ | u
  · simp [protocolParams, uidParams, keys]
  · by_cases hu : u != "" <;> simp [protocolParams, uidParams, hu, keys]

/-- **C6.** For every `track(fields)` call, a field named `lang` never appears
as a body parameter of the outgoing request: `track` deletes `lang` from the
data before building the body, and none of the protocol-generated keys is
`lang`.  Its value appears only as the `Accept-Language` header. -/
theorem lang_only_in_header (t : MatomoTracker) (d : JSObject) :
    "lang" ∉ keys (bodyParams t d)
    ∧ (buildRequest t d).acceptLanguage = getKey d "lang" := by
  constructor
  · simp only [bodyParams]
    exact not_mem_keys_spreadInto _ _ _ (lang_not_in_protocolParams t)
      (not_mem_keys_deleteKey_self d "lang")
  · rfl

/-- **C7.** Every tracking method with a required field raises its synchronous
validation error when that field is absent (`undefined`) or empty — the
method returns `Except.error` before any `TrackCall` is even produced, so no
network activity and no partial request can occur: `name` for screen
view/action, `category` and `action` for event, `keyword` for site search,
`link` for outlink, `download` for download. -/
theorem required_field_validation (t : MatomoTracker) (ui : JSObject)
    (name category action ename evalue campaign keyword scat scount link download : JSValue) :
    (truthy name = false →
        t.trackScreenView name ui
          = Except.error "Error: The \"name\" parameter is required for tracking a screen view."
        ∧ t.trackAction name ui
          = Except.error "Error: The \"name\" parameter is required for tracking an action.")
    ∧ (truthy category = false →
        t.trackEvent category action ename evalue campaign ui
          = Except.error "Error: The \"category\" parameter is required for tracking an event.")
    ∧ (truthy category = true → truthy action = false →
        t.trackEvent category action ename evalue campaign ui
          = Except.error "Error: The \"action\" parameter is required for tracking an event.")
    ∧ (truthy keyword = false →
        t.trackSiteSearch keyword scat scount ui
          = Except.error "Error: The \"keyword\" parameter is required for tracking a site search.")
    ∧ (truthy link = false →
        t.trackLink link ui
          = Except.error "Error: The \"link\" parameter is required for tracking a link click.")
    ∧ (truthy download = false →
        t.trackDownload download ui
          = Except.error "Error: The \"download\" parameter is required for tracking a file download.") := by
  refine ⟨fun h => ⟨?_, ?_⟩, fun h => ?_, fun h1 h2 => ?_, fun h => ?_, fun h => ?_,
    fun h => ?_⟩ <;>
    simp [MatomoTracker.trackScreenView, MatomoTracker.trackAction,
      MatomoTracker.trackEvent, MatomoTracker.trackSiteSearch, MatomoTracker.trackLink,
      MatomoTracker.trackDownload, *]

/-- Witness for C7: `trackEvent` with a category but a missing (`undefined`)
action fails with the action validation error. -/
theorem required_field_validation_witness :
    truthy JSValue.undefined = false
    ∧ tEnabled.trackEvent (JSValue.str "Videos") JSValue.undefined JSValue.undefined
        JSValue.undefined JSValue.undefined []
      = Except.error "Error: The \"action\" parameter is required for tracking an event." :=
  ⟨rfl,
    (required_field_validation tEnabled [] JSValue.undefined (JSValue.str "Videos")
        JSValue.undefined JSValue.undefined JSValue.undefined JSValue.undefined JSValue.undefined
        JSValue.undefined JSValue.undefined JSValue.undefined JSValue.undefined).2.2.1 rfl rfl⟩

/-- **C9.** With no explicit `trackerUrl` override (and tracking enabled, so
that an endpoint is resolved at all): if `urlBase` does not end with the
separator `/`, the resolved endpoint is `urlBase ++ "/" ++ "matomo.php"`;
if `urlBase` already ends with `/`, the resolved endpoint is
`urlBase ++ "matomo.php"`, and since the appended default path does not start
with `/` there is no doubled separator at the join point. -/
theorem urlBase_normalization (o : MatomoOptions) (h : o.trackerUrl = none)
    (hdis : o.disabled = false) :
    (o.urlBase.toList.getLast? ≠ some '/' →
        (MatomoTracker.setup o).trackerUrl = some (o.urlBase ++ "/" ++ "matomo.php"))
    ∧ (o.urlBase.toList.getLast? = some '/' →
        (MatomoTracker.setup o).trackerUrl = some (o.urlBase ++ "matomo.php"))
    ∧ "matomo.php".toList.head? ≠ some '/' := by
  refine ⟨fun hlast => ?_, fun hlast => ?_, by decide⟩
  · have hlast' : o.urlBase.data.getLast? ≠ some '/' := by
      simpa [String.toList] using hlast
    simp [MatomoTracker.setup, hdis, h, hlast']
  · have hlast' : o.urlBase.data.getLast? = some '/' := by
      simpa [String.toList] using hlast
    simp [MatomoTracker.setup, hdis, h, hlast']

/-- Witness for C9 at concrete inputs: a base without a trailing slash gains
exactly one, a base with a trailing slash gains none. -/
theorem urlBase_normalization_witness :
    (MatomoTracker.setup
        { urlBase := "https://a.example", trackerUrl := none, siteId := 1,
          userId := none, disabled := false, log := false }).trackerUrl
      = some ("https://a.example" ++ "/" ++ "matomo.php")
    ∧ (MatomoTracker.setup
        { urlBase := "https://b.example/", trackerUrl := none, siteId := 1,
          userId := none, disabled := false, log := false }).trackerUrl
      = some ("https://b.example/" ++ "matomo.php") :=
  ⟨(urlBase_normalization
      { urlBase := "https://a.example", trackerUrl := none, siteId := 1,
        userId := none, disabled := false, log := false } rfl rfl).1 (by decide),
   (urlBase_normalization
      { urlBase := "https://b.example/", trackerUrl := none, siteId := 1,
        userId := none, disabled := false, log := false } rfl rfl).2.1 (by decide)⟩

theorem mem_keys_deleteKey_of_ne (o : JSObject) (k k0 : String)
    (hk : k ∈ keys o) (hne : k ≠ k0) : k ∈ keys (deleteKey o k0) := by
  simp only [keys, List.mem_map] at hk ⊢
  rcases hk with ⟨p, hp, rfl⟩
  exact ⟨p, mem_deleteKey_of_ne o k0 p hp hne, rfl⟩

theorem mem_bodyParams_of_mem_base (t : MatomoTracker) (base ui : JSObject)
    (p : String × JSValue) (hp : p ∈ base) (hnb : (keys base).Nodup)
    (hui : p.1 ∉ keys ui) (hlang : p.1 ≠ "lang") :
    p ∈ bodyParams t (spreadInto base ui) := by
  have h1 : p ∈ spreadInto base ui := mem_spreadInto_left ui base p hp hui
  have h2 : p ∈ deleteKey (spreadInto base ui) "lang" :=
    mem_deleteKey_of_ne _ _ p h1 hlang
  have h3 : (keys (deleteKey (spreadInto base ui) "lang")).Nodup :=
    nodup_keys_deleteKey _ _ (nodup_keys_spreadInto ui base hnb)
  exact mem_spreadInto_right _ _ p h3 h2

/-- **C5.** For a dispatching `track(fields)` call the body record lists the
parameters in the order `idsite`, `rec`, `apiv`, then `uid` (present exactly
when a non-empty `userId` is configured), then `send_image`, then the caller's
fields (after the `lang` extraction): when the caller's keys do not collide
with the protocol keys the body is literally that concatenation, and on a key
collision the caller-supplied value overrides the protocol-generated one in
the final body (the colliding key keeps its first-occurrence position, as JS
object spread does). -/
theorem body_param_order_and_override (t : MatomoTracker) (d : JSObject)
    (hnd : (keys d).Nodup) :
    ((∀ k, k ∈ keys d → k ∉ keys (protocolParams t)) →
        bodyParams t d = protocolParams t ++ deleteKey d "lang")
    ∧ (∀ u, t.userId = some u → u ≠ "" →
        protocolParams t
          = [("idsite", optIntToJS t.siteId), ("rec", JSValue.num 1),
             ("apiv", JSValue.num 1), ("uid", JSValue.str u),
             ("send_image", JSValue.num 0)])
    ∧ (t.userId = none →
        protocolParams t
          = [("idsite", optIntToJS t.siteId), ("rec", JSValue.num 1),
             ("apiv", JSValue.num 1), ("send_image", JSValue.num 0)])
    ∧ (∀ k, k ∈ keys d → k ≠ "lang" → getKey (bodyParams t d) k = getKey d k) := by
  refine ⟨fun hdisj => ?_, fun u hu hu' => ?_, fun hu => ?_, fun k hk hklang => ?_⟩
  · simp only [bodyParams]
    refine spreadInto_of_disjoint _ _ (nodup_keys_deleteKey d "lang" hnd) ?_
    intro a ha
    exact hdisj a ((keys_deleteKey_sublist d "lang").subset ha)
  · simp [protocolParams, uidParams, hu, hu']
  · simp [protocolParams, uidParams, hu]
  · have hk' : k ∈ keys (deleteKey d "lang") := mem_keys_deleteKey_of_ne d k "lang" hk hklang
    simp only [bodyParams]
    rw [getKey_spreadInto_mem _ _ k (nodup_keys_deleteKey d "lang" hnd) hk',
      getKey_deleteKey_ne d "lang" k hklang]

/-- Witness for C5: with a configured user the body is the five protocol
params followed by the caller's field, and a caller-supplied `idsite`
overrides the protocol value. -/
theorem body_param_order_and_override_witness :
    bodyParams (tEnabled.updateUserInfo "u1") [("action_name", JSValue.str "x")]
      = protocolParams (tEnabled.updateUserInfo "u1")
          ++ deleteKey [("action_name", JSValue.str "x")] "lang"
    ∧ getKey (bodyParams tEnabled [("idsite", JSValue.num 99)]) "idsite"
        = getKey [("idsite", JSValue.num 99)] "idsite" :=
  ⟨(body_param_order_and_override (tEnabled.updateUserInfo "u1")
      [("action_name", JSValue.str "x")] (by decide)).1 (by decide),
   (body_param_order_and_override tEnabled [("idsite", JSValue.num 99)]
      (by decide)).2.2.2 "idsite" (by decide) (by decide)⟩

/-- **C8.** `trackSiteSearch` with a non-empty keyword and `count: 0`
dispatches, and the body record contains the pair `search_count = 0`: the
value `0` is kept as a record entry (it is only `!keyword` that is tested for
falsiness, never `count`), and it serializes to the digit `0`, not omitted. -/
theorem site_search_count_zero (t : MatomoTracker) (hdis : t.disabled = false)
    (kw scat : JSValue) (hkw : truthy kw = true) (ui : JSObject)
    (hui : "search_count" ∉ keys ui) :
    t.trackSiteSearch kw scat (JSValue.num 0) ui
        = Except.ok (TrackCall.dispatch (buildRequest t
            (spreadInto [("search", kw), ("search_cat", scat),
              ("search_count", JSValue.num 0)] ui)))
    ∧ ("search_count", JSValue.num 0)
        ∈ bodyParams t (spreadInto [("search", kw), ("search_cat", scat),
            ("search_count", JSValue.num 0)] ui)
    ∧ formEncode (jsToString (JSValue.num 0)) = "0" := by
  refine ⟨?_, ?_, by decide⟩
  · simp [MatomoTracker.trackSiteSearch, hkw, MatomoTracker.track, hdis]
  · refine mem_bodyParams_of_mem_base t _ ui ("search_count", JSValue.num 0)
      (by simp) (by simp [keys]) hui (by decide)

/-- Witness for C8 at the concrete enabled tracker. -/
theorem site_search_count_zero_witness :
    tEnabled.trackSiteSearch (JSValue.str "x") JSValue.undefined (JSValue.num 0) []
        = Except.ok (TrackCall.dispatch (buildRequest tEnabled
            (spreadInto [("search", JSValue.str "x"), ("search_cat", JSValue.undefined),
              ("search_count", JSValue.num 0)] [])))
    ∧ ("search_count", JSValue.num 0)
        ∈ bodyParams tEnabled (spreadInto [("search", JSValue.str "x"),
            ("search_cat", JSValue.undefined), ("search_count", JSValue.num 0)] []) :=
  ⟨(site_search_count_zero tEnabled rfl (JSValue.str "x") JSValue.undefined rfl []
      (by decide)).1,
   (site_search_count_zero tEnabled rfl (JSValue.str "x") JSValue.undefined rfl []
      (by decide)).2.1⟩

/-- **C10.** Absent optional fields are serialized, not omitted: a
`trackEvent` call with valid `category`/`action` but absent `name`, `value`
and `campaign` still dispatches a body whose record contains `e_n`, `e_v` and
`mtm_campaign`, each bound to `undefined` — which `URLSearchParams`
stringifies to the literal text `undefined`; likewise `search_cat` and
`search_count` in `trackSiteSearch` when `category`/`count` are absent. -/
theorem absent_optionals_serialized (t : MatomoTracker) (hdis : t.disabled = false)
    (category action kw : JSValue) (hc : truthy category = true)
    (ha : truthy action = true) (hkw : truthy kw = true) (ui : JSObject)
    (h1 : "e_n" ∉ keys ui) (h2 : "e_v" ∉ keys ui) (h3 : "mtm_campaign" ∉ keys ui)
    (h4 : "search_cat" ∉ keys ui) (h5 : "search_count" ∉ keys ui) :
    t.trackEvent category action JSValue.undefined JSValue.undefined JSValue.undefined ui
        = Except.ok (TrackCall.dispatch (buildRequest t
            (spreadInto [("e_c", category), ("e_a", action), ("e_n", JSValue.undefined),
              ("e_v", JSValue.undefined), ("mtm_campaign", JSValue.undefined)] ui)))
    ∧ t.trackSiteSearch kw JSValue.undefined JSValue.undefined ui
        = Except.ok (TrackCall.dispatch (buildRequest t
            (spreadInto [("search", kw), ("search_cat", JSValue.undefined),
              ("search_count", JSValue.undefined)] ui)))
    ∧ ("e_n", JSValue.undefined)
        ∈ bodyParams t (spreadInto [("e_c", category), ("e_a", action),
            ("e_n", JSValue.undefined), ("e_v", JSValue.undefined),
            ("mtm_campaign", JSValue.undefined)] ui)
    ∧ ("e_v", JSValue.undefined)
        ∈ bodyParams t (spreadInto [("e_c", category), ("e_a", action),
            ("e_n", JSValue.undefined), ("e_v", JSValue.undefined),
            ("mtm_campaign", JSValue.undefined)] ui)
    ∧ ("mtm_campaign", JSValue.undefined)
        ∈ bodyParams t (spreadInto [("e_c", category), ("e_a", action),
            ("e_n", JSValue.undefined), ("e_v", JSValue.undefined),
            ("mtm_campaign", JSValue.undefined)] ui)
    ∧ ("search_cat", JSValue.undefined)
        ∈ bodyParams t (spreadInto [("search", kw), ("search_cat", JSValue.undefined),
            ("search_count", JSValue.undefined)] ui)
    ∧ ("search_count", JSValue.undefined)
        ∈ bodyParams t (spreadInto [("search", kw), ("search_cat", JSValue.undefined),
            ("search_count", JSValue.undefined)] ui)
    ∧ formEncode (jsToString JSValue.undefined) = "undefined" := by
  refine ⟨?_, ?_, ?_, ?_, ?_, ?_, ?_, by decide⟩
  · simp [MatomoTracker.trackEvent, hc, ha, MatomoTracker.track, hdis]
  · simp [MatomoTracker.trackSiteSearch, hkw, MatomoTracker.track, hdis]
  · exact mem_bodyParams_of_mem_base t _ ui ("e_n", JSValue.undefined)
      (by simp) (by simp [keys]) h1 (by decide)
  · exact mem_bodyParams_of_mem_base t _ ui ("e_v", JSValue.undefined)
      (by simp) (by simp [keys]) h2 (by decide)
  · exact mem_bodyParams_of_mem_base t _ ui ("mtm_campaign", JSValue.undefined)
      (by simp) (by simp [keys]) h3 (by decide)
  · exact mem_bodyParams_of_mem_base t _ ui ("search_cat", JSValue.undefined)
      (by simp) (by simp [keys]) h4 (by decide)
  · exact mem_bodyParams_of_mem_base t _ ui ("search_count", JSValue.undefined)
      (by simp) (by simp [keys]) h5 (by decide)

/-- Witness for C10 at the concrete enabled tracker with an empty user-info
bag. -/
theorem absent_optionals_serialized_witness :
    ("e_n", JSValue.undefined)
        ∈ bodyParams tEnabled (spreadInto [("e_c", JSValue.str "Videos"),
            ("e_a", JSValue.str "Play"), ("e_n", JSValue.undefined),
            ("e_v", JSValue.undefined), ("mtm_campaign", JSValue.undefined)] [])
    ∧ formEncode (jsToString JSValue.undefined) = "undefined" :=
  ⟨(absent_optionals_serialized tEnabled rfl (JSValue.str "Videos")
      (JSValue.str "Play") (JSValue.str "k") rfl rfl rfl [] (by decide) (by decide)
      (by decide) (by decide) (by decide)).2.2.1,
   (absent_optionals_serialized tEnabled rfl (JSValue.str "Videos")
      (JSValue.str "Play") (JSValue.str "k") rfl rfl rfl [] (by decide) (by decide)
      (by decide) (by decide) (by decide)).2.2.2.2.2.2.2⟩

/-- **C4.** (Modelled from the spec, see `MatomoTracker.updateUserInfo` /
`MatomoTracker.removeUserInfo`.)  After `updateUserInfo` sets a non-empty
user identity, every subsequent dispatching `track` call includes the `uid`
field with that identity; after `removeUserInfo`, subsequent calls omit
`uid` entirely.  In-flight calls are unaffected by construction: a dispatched
request is a pure function of the tracker state at call time, so a request
built before the mutation is a fixed value that the mutation cannot alter. -/
theorem update_remove_user_info (t : MatomoTracker) (u : String) (hu : u ≠ "")
    (d : JSObject) (hd : "uid" ∉ keys d) (hdis : t.disabled = false) :
    (t.updateUserInfo u).track (some d)
        = TrackCall.dispatch (buildRequest (t.updateUserInfo u) d)
    ∧ ("uid", JSValue.str u) ∈ bodyParams (t.updateUserInfo u) d
    ∧ t.removeUserInfo.track (some d)
        = TrackCall.dispatch (buildRequest t.removeUserInfo d)
    ∧ "uid" ∉ keys (bodyParams t.removeUserInfo d) := by
  have hd' : "uid" ∉ keys (deleteKey d "lang") := fun hmem =>
    hd ((keys_deleteKey_sublist d "lang").subset hmem)
  refine ⟨?_, ?_, ?_, ?_⟩
  · simp [MatomoTracker.track, MatomoTracker.updateUserInfo, hdis]
  · have huid : ("uid", JSValue.str u) ∈ protocolParams (t.updateUserInfo u) := by
      have : u != "" := by simpa using hu
      simp [protocolParams, uidParams, MatomoTracker.updateUserInfo, this]
    simp only [bodyParams]
    exact mem_spreadInto_left _ _ _ huid hd'
  · simp [MatomoTracker.track, MatomoTracker.removeUserInfo, hdis]
  · have hproto : "uid" ∉ keys (protocolParams t.removeUserInfo) := by
      simp [protocolParams, uidParams, MatomoTracker.removeUserInfo, keys]
    simp only [bodyParams]
    exact not_mem_keys_spreadInto _ _ _ hproto hd'

/-- Witness for C4 at the concrete enabled tracker. -/
theorem update_remove_user_info_witness :
    ("uid", JSValue.str "UID76903202")
        ∈ bodyParams (tEnabled.updateUserInfo "UID76903202")
            [("action_name", JSValue.str "x")]
    ∧ "uid" ∉ keys (bodyParams tEnabled.removeUserInfo
        [("action_name", JSValue.str "x")]) :=
  ⟨(update_remove_user_info tEnabled "UID76903202" (by decide)
      [("action_name", JSValue.str "x")] (by decide) rfl).2.1,
   (update_remove_user_info tEnabled "UID76903202" (by decide)
      [("action_name", JSValue.str "x")] (by decide) rfl).2.2.2⟩
